import Mathlib

/-!
Verification development for the query-language front end (lexer in
`tokenizer.rs`, grammar in `query_grammar.rs`).  Source strings and lexeme
values are modelled as `List Char`; Rust byte offsets become character
offsets (every slice taken by the source code happens at a character
boundary it discovered by iteration, so the observable slices coincide).
-/

namespace Federation

/-- Modelled from the spec: the `position` crate's `Pos`, a (line, column)
cursor (§2 "Position tracker"); the crate itself is not under `src/`. -/
structure Pos where
  line : Nat
  column : Nat
deriving DecidableEq, Repr

/-- `Kind` from `tokenizer.rs`. -/
inductive Kind where
  | punctuator
  | name
  | intValue
  | floatValue
  | stringValue
  | blockString
deriving DecidableEq, Repr

/-- `Token` from `tokenizer.rs`; the borrowed `&str` value is a `List Char`. -/
structure Token where
  kind : Kind
  value : List Char
deriving DecidableEq, Repr

/-- `TokenStream` from `tokenizer.rs`. -/
structure TokenStream where
  buf : List Char
  position : Pos
  off : Nat
deriving DecidableEq, Repr

/-- `Checkpoint` from `tokenizer.rs`. -/
structure Checkpoint where
  position : Pos
  off : Nat
deriving DecidableEq, Repr

/-- The distinct error conditions raised by `TokenStream::peek_token`
(`combine::easy::Error` payloads in the source). -/
inductive LexError where
  | endOfInput
  | bareDot
  | unsupportedFloat (value : List Char)
  | unsupportedInt (value : List Char)
  | unterminatedBlockString
  | unexpectedChar (c : Char)
deriving DecidableEq, Repr

/-- Rust `x >= '0' && x <= '9'` as used throughout `tokenizer.rs`. -/
def isDigit09 (c : Char) : Bool :=
  '0' ≤ c && c ≤ '9'

/-- First character of a Name: `'_' | 'a'...'z' | 'A'...'Z'`. -/
def isNameStart (c : Char) : Bool :=
  c = '_' || ('a' ≤ c && c ≤ 'z') || ('A' ≤ c && c ≤ 'Z')

/-- Continuation character of a Name: adds `'0'...'9'`. -/
def isNameCont (c : Char) : Bool :=
  isNameStart c || isDigit09 c

/-- The twelve single-character punctuators of `peek_token`. -/
def isPunctChar (c : Char) : Bool :=
  c = '!' || c = '$' || c = ':' || c = '=' || c = '@' || c = '|' ||
  c = '(' || c = ')' || c = '[' || c = ']' || c = '{' || c = '}'

/-- Delimiters that end a numeric lexeme in `peek_token`'s number branch. -/
def isNumDelim (c : Char) : Bool :=
  c = ' ' || c = '\n' || c = '\r' || c = '\t' || c = ',' || c = '#' ||
  isPunctChar c

/-- Characters ignored by `skip_whitespace` (BOM, tab, space, CR, LF, comma). -/
def isWsChar (c : Char) : Bool :=
  c = Char.ofNat 0xFEFF || c = '\t' || c = ' ' || c = '\r' || c = '\n' ||
  c = ','

/-- `check_int` from `tokenizer.rs`. -/
def check_int (v : List Char) : Bool :=
  decide (v = ['0']) || decide (v = ['-', '0']) ||
    (!decide (v.take 1 = ['0']) && !decide (v = ['-']) &&
     !decide (v.take 2 = ['-', '0']) && (v.drop 1).all isDigit09)

/-- `check_dec` from `tokenizer.rs`. -/
def check_dec (v : List Char) : Bool :=
  !v.isEmpty && v.all isDigit09

/-- `check_exp` from `tokenizer.rs`. -/
def check_exp (v : List Char) : Bool :=
  (decide (v.take 1 = ['-']) || decide (v.take 1 = ['+'])) &&
    decide (2 ≤ v.length) && (v.drop 1).all isDigit09

/-- `check_float` from `tokenizer.rs`.  The `(None, None)` arm is
`unreachable!()` in the source (the caller only invokes `check_float` when a
marker was seen); it is mapped to `false` here. -/
def check_float (v : List Char) : Option Nat → Option Nat → Bool
  | some e, some r =>
    if e < r then false
    else
      check_int (v.take r) && check_dec ((v.drop (r + 1)).take (e - (r + 1))) &&
        check_exp (v.drop (e + 1))
  | some e, none => check_int (v.take e) && check_exp (v.drop (e + 1))
  | none, some r => check_int (v.take r) && check_dec (v.drop (r + 1))
  | none, none => false

/-- The scanning loop of `peek_token`'s number branch: walk the characters
after the first one, remembering the index of the last `.` and the last
`e`/`E`, stopping at a delimiter or at end of input.  Returns
(length, exponent index, fraction index). -/
def numScan : List Char → Nat → Option Nat → Option Nat →
    Nat × Option Nat × Option Nat
  | [], idx, e, r => (idx, e, r)
  | c :: cs, idx, e, r =>
    if isNumDelim c then (idx, e, r)
    else if c = '.' then numScan cs (idx + 1) e (some idx)
    else if c = 'e' || c = 'E' then numScan cs (idx + 1) (some idx) r
    else numScan cs (idx + 1) e r

/-- The single-line-string scanning loop of `peek_token`: `prev` is the
previously seen character, `idx` the index of the current one; a `"` whose
predecessor is not `\` ends the lexeme (length `idx + 1`); running out of
input yields `none`. -/
def singleScan : Char → List Char → Nat → Option Nat
  | _, [], _ => none
  | prev, c :: cs, idx =>
    if c = '"' then
      if prev = '\\' then singleScan c cs (idx + 1) else some (idx + 1)
    else singleScan c cs (idx + 1)

/-- The block-string scanning loop of `peek_token`: successive
non-overlapping occurrences of `"""` (as `str::match_indices` finds them);
an occurrence whose preceding character is `\` is skipped. -/
def blockScan : List Char → Nat → Option Char → Option Nat
  | '"' :: '"' :: '"' :: rest, idx, prev =>
    if prev = some '\\' then blockScan rest (idx + 3) (some '"')
    else some idx
  | c :: cs, idx, _ => blockScan cs (idx + 1) (some c)
  | [], _, _ => none

/-- The counting loops of `skip_whitespace` fused into one scan: the flag
records whether the scan is inside a `#` comment (the source's inner loop,
which consumes up to and including the first `\r`/`\n`).  Returns the
length of the insignificant prefix (whitespace, commas, comments). -/
def skipWsAux : Bool → List Char → Nat
  | _, [] => 0
  | true, c :: cs =>
    if c = '\r' || c = '\n' then 1 + skipWsAux false cs
    else 1 + skipWsAux true cs
  | false, c :: cs =>
    if isWsChar c then 1 + skipWsAux false cs
    else if c = '#' then 1 + skipWsAux true cs
    else 0

def skipWhitespaceLen (l : List Char) : Nat :=
  skipWsAux false l

/-- `peek_token` from `tokenizer.rs`, over the unread suffix of the buffer. -/
def peekTokenAux (rest : List Char) : Except LexError (Kind × Nat) :=
  match rest with
  | [] => .error .endOfInput
  | c :: tail =>
    if isPunctChar c then .ok (.punctuator, 1)
    else if c = '.' then
      if tail.take 2 = ['.', '.'] then .ok (.punctuator, 3)
      else .error .bareDot
    else if isNameStart c then .ok (.name, 1 + (tail.takeWhile isNameCont).length)
    else if c = '-' || isDigit09 c then
      match numScan tail 1 none none with
      | (len, exponent, real) =>
        if exponent.isSome || real.isSome then
          if check_float (rest.take len) exponent real then .ok (.floatValue, len)
          else .error (.unsupportedFloat (rest.take len))
        else
          if check_int (rest.take len) then .ok (.intValue, len)
          else .error (.unsupportedInt (rest.take len))
    else if c = '"' then
      if tail.take 2 = ['"', '"'] then
        match blockScan (tail.drop 2) 0 none with
        | some endidx => .ok (.blockString, endidx + 6)
        | none => .error .unterminatedBlockString
      else
        match singleScan c tail 1 with
        | some len => .ok (.stringValue, len)
        | none => .ok (.name, rest.length)
    else .error (.unexpectedChar c)

/-- `TokenStream::peek_token`. -/
def peekToken (s : TokenStream) : Except LexError (Kind × Nat) :=
  peekTokenAux (s.buf.drop s.off)

/-- Characters after the last newline of `val` (the `rfind('\n')` suffix in
`update_position`). -/
def countAfterLastNl (val : List Char) : Nat :=
  (val.reverse.takeWhile (fun c => !decide (c = '\n'))).length

/-- `TokenStream::update_position`. -/
def updatePosition (s : TokenStream) (len : Nat) : TokenStream :=
  let val := (s.buf.drop s.off).take len
  let lines := val.count '\n'
  let position :=
    if lines > 0 then
      { line := s.position.line + lines, column := countAfterLastNl val + 1 }
    else
      { line := s.position.line, column := s.position.column + val.length }
  { buf := s.buf, position := position, off := s.off + len }

/-- `TokenStream::skip_whitespace`. -/
def skipWhitespace (s : TokenStream) : TokenStream :=
  let num := skipWhitespaceLen (s.buf.drop s.off)
  if num > 0 then updatePosition s num else s

/-- `TokenStream::new`. -/
def TokenStream.new (s : List Char) : TokenStream :=
  skipWhitespace { buf := s, position := { line := 1, column := 1 }, off := 0 }

/-- `StreamOnce::uncons` for `TokenStream`: classify the next lexeme, slice
its value, advance past it and skip trailing insignificant content.  On a
lexical error the stream is unchanged. -/
def uncons (s : TokenStream) : Except LexError Token × TokenStream :=
  match peekToken s with
  | .error e => (.error e, s)
  | .ok (kind, len) =>
    (.ok { kind := kind, value := (s.buf.drop s.off).take len },
      skipWhitespace (updatePosition s len))

/-- `Resetable::checkpoint` for `TokenStream`. -/
def checkpoint (s : TokenStream) : Checkpoint :=
  { position := s.position, off := s.off }

/-- `Resetable::reset` for `TokenStream`. -/
def reset (s : TokenStream) (c : Checkpoint) : TokenStream :=
  { buf := s.buf, position := c.position, off := c.off }

/-- Consume `n` tokens from the stream (ignoring the produced tokens). -/
def unconsIter : Nat → TokenStream → TokenStream
  | 0, s => s
  | n + 1, s => unconsIter n (uncons s).2

/-! ## AST data model

Modelled from the spec: the AST node types of `query.rs` are not under
`src/`; the definitions below follow §3 of the specification (names,
variants and field order as described there and as used by
`query_grammar.rs`).  `Number` is modelled as a checked 64-bit integer, per
§3 "Int stores an arbitrary-precision or checked integer; overflow on parse
is a hard failure" and the §7/§8 "number too large" requirement. -/

/-- Modelled from the spec: `Value` (§3).  `float` is a recognized token
kind with no production wired into `value` (§3, §9). -/
inductive Value where
  | int (n : Int)
  | float
  | string (s : List Char)
  | enumValue (n : List Char)
  | var (n : List Char)
  | listValue (l : List Value)
  | objectValue (l : List (List Char × Value))

/-- Modelled from the spec: `Directive` (§3). -/
structure Directive where
  name : List Char
  arguments : List (List Char × Value)

/-- Modelled from the spec: `TypeCondition` (§3). -/
inductive TypeCondition where
  | on (n : List Char)

/-- Modelled from the spec: `VariableType` (§3; only named types). -/
inductive VariableType where
  | namedType (n : List Char)

/-- Modelled from the spec: `VariableDefinition` (§3). -/
structure VariableDefinition where
  name : List Char
  var_type : VariableType
  default_value : Option Value

mutual
/-- Modelled from the spec: `Selection` (§3). -/
inductive Selection where
  | field (f : Field)
  | fragmentSpread (fs : FragmentSpread)
  | inlineFragment (f : InlineFragment)

/-- Modelled from the spec: `Field` (§3): name, alias, arguments,
directives, nested selection set. -/
inductive Field where
  | mk (name : List Char) (alias_ : Option (List Char))
      (arguments : List (List Char × Value)) (directives : List Directive)
      (selection_set : SelectionSet)

/-- Modelled from the spec: `SelectionSet` (§3). -/
inductive SelectionSet where
  | mk (items : List Selection)

/-- Modelled from the spec: `FragmentSpread` (§3). -/
inductive FragmentSpread where
  | mk (fragment_name : List Char) (directives : List Directive)

/-- Modelled from the spec: `InlineFragment` (§3). -/
inductive InlineFragment where
  | mk (type_condition : Option TypeCondition) (directives : List Directive)
      (selection_set : SelectionSet)
end

/-- Modelled from the spec: `Query` (§3). -/
structure Query where
  name : Option (List Char)
  variable_definitions : List VariableDefinition
  directives : List Directive
  selection_set : SelectionSet

/-- Modelled from the spec: `Mutation` (§3). -/
structure Mutation where
  name : Option (List Char)
  variable_definitions : List VariableDefinition
  directives : List Directive
  selection_set : SelectionSet

/-- Modelled from the spec: `Subscription` (§3). -/
structure Subscription where
  name : Option (List Char)
  variable_definitions : List VariableDefinition
  directives : List Directive
  selection_set : SelectionSet

/-- Modelled from the spec: `OperationDefinition` (§3). -/
inductive OperationDefinition where
  | selectionSet (s : SelectionSet)
  | query (q : Query)
  | mutation (m : Mutation)
  | subscription (s : Subscription)

/-- Modelled from the spec: `FragmentDefinition` (§3). -/
structure FragmentDefinition where
  name : List Char
  type_condition : TypeCondition
  directives : List Directive
  selection_set : SelectionSet

/-- Modelled from the spec: `Definition` (§3). -/
inductive Definition where
  | operation (o : OperationDefinition)
  | fragment (f : FragmentDefinition)

/-- Modelled from the spec: `Document` (§3). -/
structure Document where
  definitions : List Definition

/-- `empty_selection` from `query_grammar.rs`. -/
def empty_selection : SelectionSet := .mk []

/-! ## Literal decoders and integer parsing -/

/-- Error kinds of Rust's `ParseIntError` (`core::num`). -/
inductive IntErr where
  | empty
  | invalidDigit
  | posOverflow
  | negOverflow
deriving DecidableEq, Repr

/-- Decimal digits to a natural number. -/
def digitsToNat (l : List Char) : Nat :=
  l.foldl (fun acc c => acc * 10 + (c.toNat - '0'.toNat)) 0

/-- `str::parse::<i64>()`: optional sign, one or more decimal digits,
checked against the `i64` range (`posOverflow` is Rust's "number too large
to fit in target type"). -/
def rustParseI64 (v : List Char) : Except IntErr Int :=
  match v with
  | [] => .error .empty
  | c :: rest =>
    let p := if c = '+' then (false, rest)
             else if c = '-' then (true, rest)
             else (false, v)
    if p.2.isEmpty then .error .invalidDigit
    else if !p.2.all isDigit09 then .error .invalidDigit
    else
      let n := digitsToNat p.2
      if p.1 then
        if n > 2 ^ 63 then .error .negOverflow else .ok (-(n : Int))
      else
        if n > 2 ^ 63 - 1 then .error .posOverflow else .ok (n : Int)

/-- Result of a Rust function that can also panic (`unimplemented!()`,
`.expect(..)`). -/
inductive RustRes (α : Type) where
  | ok (a : α)
  | err (c : Char)
  | panicked

/-- The escape-processing loop of `unquote_string`, over the body between
the quotes; `acc` is the reversed output.  `\u` hits `unimplemented!()` in
the source and a trailing lone `\` hits
`.expect("slash cant be and the end")`; both are modelled as `panicked`.
`\b` is pushed as U+0010 exactly as the source writes `'\u{0010}'`. -/
def unquoteLoop : List Char → List Char → RustRes (List Char)
  | [], acc => .ok acc.reverse
  | c :: rest, acc =>
    if c = '\\' then
      match rest with
      | [] => .panicked
      | e :: rest' =>
        if e = '"' || e = '\\' || e = '/' then unquoteLoop rest' (e :: acc)
        else if e = 'b' then unquoteLoop rest' (Char.ofNat 0x10 :: acc)
        else if e = 'f' then unquoteLoop rest' (Char.ofNat 0x0C :: acc)
        else if e = 'n' then unquoteLoop rest' ('\n' :: acc)
        else if e = 'r' then unquoteLoop rest' ('\r' :: acc)
        else if e = 't' then unquoteLoop rest' ('\t' :: acc)
        else if e = 'u' then .panicked
        else .err e
    else unquoteLoop rest (c :: acc)

/-- `unquote_string` from `query_grammar.rs`: strip the surrounding quotes
and process escapes (`err c` is the source's "bad escaped char" error). -/
def unquote_string (s : List Char) : RustRes (List Char) :=
  unquoteLoop ((s.drop 1).dropLast) []

/-- `char::is_whitespace` for the characters `trim`/`trim_left` can meet in
practice here (ASCII whitespace; the full Unicode table is irrelevant to
the parsed grammar). -/
def isRustWs (c : Char) : Bool :=
  c = ' ' || c = '\t' || c = '\n' || c = '\r' ||
  c = Char.ofNat 0x0B || c = Char.ofNat 0x0C

/-- `str::lines`: split on `\n`, drop a final empty segment, strip one
trailing `\r` from each line. -/
def rustLines (l : List Char) : List (List Char) :=
  if l.isEmpty then []
  else
    let segs := (l.splitOn '\n').map fun seg =>
      if seg.getLast? = some '\r' then seg.dropLast else seg
    if (l.splitOn '\n').getLast? = some [] then segs.dropLast else segs

/-- Left-to-right non-overlapping replacement of `\"""` by `"""`
(`str::replace` as used by `unquote_block_string`). -/
def replaceEscTriple : List Char → List Char
  | '\\' :: '"' :: '"' :: '"' :: rest => '"' :: '"' :: '"' :: replaceEscTriple rest
  | c :: rest => c :: replaceEscTriple rest
  | [] => []

/-- `unquote_block_string` from `query_grammar.rs`: strip the `"""`
delimiters, dedent by the minimum leading-whitespace width of the lines
after the first, keep the first line trimmed when non-blank, un-escape
`\"""`, join with newlines and trim the right end. -/
def unquote_block_string (s : List Char) : RustRes (List Char) :=
  let inner := ((s.drop 3).dropLast.dropLast).dropLast
  let lines := rustLines inner
  let indent := ((lines.drop 1).map fun l =>
    l.length - (l.dropWhile isRustWs).length).min?.getD 0
  let first :=
    match lines.head? with
    | some f =>
      let stripped := ((f.dropWhile isRustWs).reverse.dropWhile isRustWs).reverse
      if stripped.length > 0 then stripped ++ ['\n'] else []
    | none => []
  let restLines := (lines.drop 1).map fun l =>
    replaceEscTriple (l.drop indent) ++ ['\n']
  let result := first ++ restLines.flatten
  .ok ((result.reverse.dropWhile isRustWs).reverse)

/-! ## Parser combinators

The grammar uses the `combine` library.  `PResult` mirrors `combine`'s
`ConsumedResult`: `cok`/`eok` are `ConsumedOk`/`EmptyOk`, `cerr`/`eerr` are
`ConsumedErr`/`EmptyErr` (on an empty error the caller's checkpoint/reset
makes the stream state irrelevant, so errors carry no stream), and `pan`
propagates a Rust panic raised inside a closure. -/

/-- Parse-level errors.  `combine`'s error payloads (positions, expected
sets and merging) are collapsed to the reason; the ok/err/panic
classification and the consumed/empty distinction are preserved exactly. -/
inductive PError where
  | lexical (e : LexError)
  | unexpectedToken
  | expectedEof
  | numberError (e : IntErr)
  | badEscape (c : Char)
deriving DecidableEq, Repr

inductive PResult (α : Type) where
  | cok (a : α) (s : TokenStream)
  | eok (a : α) (s : TokenStream)
  | cerr (e : PError)
  | eerr (e : PError)
  | pan

def GParser (α : Type) : Type := TokenStream → PResult α

/-- `combine`'s `satisfy` over this token stream: `uncons`, succeed
consuming when the predicate holds, fail empty otherwise (stream errors
also surface as empty errors). -/
def satisfyTok (pred : Token → Bool) : GParser Token := fun s =>
  match uncons s with
  | (.error e, _) => .eerr (.lexical e)
  | (.ok tok, s') => if pred tok then .cok tok s' else .eerr .unexpectedToken

/-- Modelled from the spec: `helpers.rs` (not under `src/`) provides the
exact-punctuator matcher (§4.3 "primitive matchers"). -/
def punct (v : List Char) : GParser Token :=
  satisfyTok fun t => decide (t.kind = .punctuator) && decide (t.value = v)

/-- Modelled from the spec: `helpers.rs` exact-keyword-identifier matcher. -/
def ident (v : List Char) : GParser Token :=
  satisfyTok fun t => decide (t.kind = .name) && decide (t.value = v)

/-- Modelled from the spec: `helpers.rs` token-kind matcher. -/
def kindP (k : Kind) : GParser Token :=
  satisfyTok fun t => decide (t.kind = k)

/-- `map`. -/
def pmap (f : α → β) (p : GParser α) : GParser β := fun s =>
  match p s with
  | .cok a s' => .cok (f a) s'
  | .eok a s' => .eok (f a) s'
  | .cerr e => .cerr e
  | .eerr e => .eerr e
  | .pan => .pan

/-- Modelled from the spec: `helpers.rs` arbitrary-name matcher (returns
the token text). -/
def nameP : GParser (List Char) :=
  pmap Token.value (kindP .name)

/-- `and` (sequencing): the pair is consumed when either side consumed; a
failure of the second parser after consumption is a consumed error. -/
def andP (p : GParser α) (q : GParser β) : GParser (α × β) := fun s =>
  match p s with
  | .cok a s' =>
    (match q s' with
     | .cok b s'' => .cok (a, b) s''
     | .eok b s'' => .cok (a, b) s''
     | .cerr e => .cerr e
     | .eerr e => .cerr e
     | .pan => .pan)
  | .eok a s' =>
    (match q s' with
     | .cok b s'' => .cok (a, b) s''
     | .eok b s'' => .eok (a, b) s''
     | .cerr e => .cerr e
     | .eerr e => .eerr e
     | .pan => .pan)
  | .cerr e => .cerr e
  | .eerr e => .eerr e
  | .pan => .pan

/-- `with` (keep right). -/
def withP (p : GParser α) (q : GParser β) : GParser β :=
  pmap Prod.snd (andP p q)

/-- `skip` (keep left). -/
def skipP (p : GParser α) (q : GParser β) : GParser α :=
  pmap Prod.fst (andP p q)

/-- `or`: the second alternative runs only when the first failed without
consuming input (the checkpoint/reset backtracking of `combine`). -/
def orP (p : GParser α) (q : GParser α) : GParser α := fun s =>
  match p s with
  | .eerr _ => q s
  | r => r

/-- `optional`: recovers only empty failures; a consumed failure
propagates. -/
def optionalP (p : GParser α) : GParser (Option α) := fun s =>
  match p s with
  | .cok a s' => .cok (some a) s'
  | .eok a s' => .eok (some a) s'
  | .eerr _ => .eok none s
  | .cerr e => .cerr e
  | .pan => .pan

/-- `many`, with explicit fuel.  `combine`'s `many` diverges when its
argument succeeds without consuming, and loops while it consumes; fuel
exhaustion and the empty-success case are both mapped to the
divergence marker (neither is reachable for this grammar, every iterated
production consumes at least one token). -/
def manyAux (p : GParser α) : Nat → TokenStream → PResult (List α)
  | 0, _ => .pan
  | fuel + 1, s =>
    match p s with
    | .eerr _ => .eok [] s
    | .cerr e => .cerr e
    | .pan => .pan
    | .eok _ _ => .pan
    | .cok a s' =>
      (match manyAux p fuel s' with
       | .cok as s'' => .cok (a :: as) s''
       | .eok as s'' => .cok (a :: as) s''
       | .cerr e => .cerr e
       | .eerr e => .cerr e
       | .pan => .pan)

def manyP (p : GParser α) : GParser (List α) := fun s =>
  manyAux p (s.buf.length + 1) s

/-- `many1 p` = `p` then `many p`. -/
def many1P (p : GParser α) : GParser (List α) :=
  pmap (fun x => x.1 :: x.2) (andP p (manyP p))

/-- `and_then` with a fallible Rust closure: the closure's error becomes a
parse error with the same consumed flag; a panicking closure aborts. -/
def andThenR (p : GParser α) (f : α → RustRes β) (mkErr : Char → PError) :
    GParser β := fun s =>
  match p s with
  | .cok a s' =>
    (match f a with
     | .ok b => .cok b s'
     | .err c => .cerr (mkErr c)
     | .panicked => .pan)
  | .eok a s' =>
    (match f a with
     | .ok b => .eok b s'
     | .err c => .eerr (mkErr c)
     | .panicked => .pan)
  | .cerr e => .cerr e
  | .eerr e => .eerr e
  | .pan => .pan

/-- `and_then` with an `Except`-valued closure. -/
def andThenE (p : GParser α) (f : α → Except PError β) : GParser β := fun s =>
  match p s with
  | .cok a s' =>
    (match f a with
     | .ok b => .cok b s'
     | .error e => .cerr e)
  | .eok a s' =>
    (match f a with
     | .ok b => .eok b s'
     | .error e => .eerr e)
  | .cerr e => .cerr e
  | .eerr e => .eerr e
  | .pan => .pan

/-- `eof()`: succeeds exactly at end of input, fails empty otherwise. -/
def eofP : GParser Unit := fun s =>
  match uncons s with
  | (.error .endOfInput, _) => .eok () s
  | (.error e, _) => .eerr (.lexical e)
  | (.ok _, _) => .eerr .expectedEof

/-! ## Grammar productions (`query_grammar.rs`)

The mutually recursive productions carry a fuel argument for termination;
running out of fuel is the divergence marker, unreachable when the fuel
exceeds the recursion depth (every nesting level consumes tokens).  Each
recursive call passes the predecessor fuel. -/

/-- `int_value`: an IntValue token fed through `str::parse` (the `Number`
wrapper takes the checked 64-bit value). -/
def intValueP : GParser Value :=
  andThenE (kindP .intValue) fun tok =>
    match rustParseI64 tok.value with
    | .ok n => .ok (Value.int n)
    | .error e => .error (.numberError e)

/-- `string_value`: a StringValue token fed through `unquote_string`. -/
def stringValueP : GParser Value :=
  andThenR (kindP .stringValue) (fun tok =>
    match unquote_string tok.value with
    | .ok v => .ok (Value.string v)
    | .err c => .err c
    | .panicked => .panicked) PError.badEscape

/-- `block_string_value`: a BlockString token fed through
`unquote_block_string`. -/
def blockStringValueP : GParser Value :=
  andThenR (kindP .blockString) (fun tok =>
    match unquote_block_string tok.value with
    | .ok v => .ok (Value.string v)
    | .err c => .err c
    | .panicked => .panicked) PError.badEscape

/-- `variable_type`: only named types are parsed. -/
def variableTypeP : GParser VariableType :=
  pmap VariableType.namedType nameP

mutual

/-- `directives`: zero or more `@ name arguments`. -/
def directivesP : Nat → GParser (List Directive)
  | 0 => fun _ => .pan
  | fuel + 1 =>
    manyP (pmap (fun x => Directive.mk x.1 x.2)
      (andP (withP (punct ['@']) nameP) (argumentsP fuel)))

/-- `arguments`: optional parenthesized non-empty `name : value` list,
defaulting to the empty list when the parenthesis is absent. -/
def argumentsP : Nat → GParser (List (List Char × Value))
  | 0 => fun _ => .pan
  | fuel + 1 =>
    pmap (fun o => o.getD [])
      (optionalP (skipP
        (withP (punct ['(']) (many1P (andP (skipP nameP (punct [':'])) (valueP fuel))))
        (punct [')'])))

/-- `field`: name, optional `: name` alias form (first identifier is the
alias, second the field name), arguments, directives, optional selection
set (absent yields the empty sentinel). -/
def fieldP : Nat → GParser Field
  | 0 => fun _ => .pan
  | fuel + 1 =>
    pmap (fun x =>
      match x with
      | ((((name_or_alias, opt_name), arguments), directives), sel) =>
        match opt_name with
        | some name =>
          Field.mk name (some name_or_alias) arguments directives
            (sel.getD empty_selection)
        | none =>
          Field.mk name_or_alias none arguments directives
            (sel.getD empty_selection))
      (andP (andP (andP (andP nameP (optionalP (withP (punct [':']) nameP)))
        (argumentsP fuel)) (directivesP fuel)) (optionalP (selectionSetP fuel)))

/-- `selection`: a field, or `...` followed by the inline-fragment
production (optional `on` type condition, directives, selection set) with
the fragment-spread production (name, directives) as fallback — the
source's alternation order. -/
def selectionP : Nat → GParser Selection
  | 0 => fun _ => .pan
  | fuel + 1 =>
    orP (pmap Selection.field (fieldP fuel))
      (withP (punct ['.', '.', '.'])
        (orP
          (pmap (fun x =>
              Selection.inlineFragment (InlineFragment.mk x.1.1 x.1.2 x.2))
            (andP (andP
              (optionalP (pmap TypeCondition.on (withP (ident ['o', 'n']) nameP)))
              (directivesP fuel)) (selectionSetP fuel)))
          (pmap (fun x => Selection.fragmentSpread (FragmentSpread.mk x.1 x.2))
            (andP nameP (directivesP fuel)))))

/-- `selection_set`: `{` one-or-more selections `}`. -/
def selectionSetP : Nat → GParser SelectionSet
  | 0 => fun _ => .pan
  | fuel + 1 =>
    pmap SelectionSet.mk
      (skipP (withP (punct ['{']) (many1P (selectionP fuel))) (punct ['}']))

/-- `value`: the source's alternation
`name | int | string | block string | $name | list | object`. -/
def valueP : Nat → GParser Value
  | 0 => fun _ => .pan
  | fuel + 1 =>
    orP (orP (orP (orP (orP (orP
      (pmap Value.enumValue nameP)
      intValueP)
      stringValueP)
      blockStringValueP)
      (pmap Value.var (withP (punct ['$']) nameP)))
      (pmap Value.listValue
        (skipP (withP (punct ['[']) (manyP (valueP fuel))) (punct [']']))))
      (pmap Value.objectValue
        (skipP (withP (punct ['{'])
          (manyP (andP (skipP nameP (punct [':'])) (valueP fuel))))
          (punct ['}'])))

/-- `default_value`: the restricted alternation
`name | int | block string | list of default_value`. -/
def defaultValueP : Nat → GParser Value
  | 0 => fun _ => .pan
  | fuel + 1 =>
    orP (orP (orP
      (pmap Value.enumValue nameP)
      intValueP)
      blockStringValueP)
      (pmap Value.listValue
        (skipP (withP (punct ['[']) (manyP (defaultValueP fuel))) (punct [']'])))

end

/-- `operation_common`: optional name, optional parenthesized non-empty
variable-definition list (defaulting to empty when the parenthesis is
absent), then a required selection set. -/
def operationCommonP (fuel : Nat) :
    GParser (Option (List Char) × List VariableDefinition × SelectionSet) :=
  pmap (fun x => (x.1.1, x.1.2, x.2))
    (andP (andP (optionalP nameP)
      (pmap (fun o => o.getD [])
        (optionalP (skipP
          (withP (punct ['('])
            (many1P (pmap (fun x => VariableDefinition.mk x.1.1 x.1.2 x.2)
              (andP (andP (skipP (withP (punct ['$']) nameP) (punct [':']))
                variableTypeP)
                (optionalP (withP (punct ['=']) (defaultValueP fuel)))))))
          (punct [')'])))))
      (selectionSetP fuel))

/-- `query`: keyword `query` then `operation_common`; directives stay
empty. -/
def queryP (fuel : Nat) : GParser Query :=
  pmap (fun x => Query.mk x.1 x.2.1 [] x.2.2)
    (withP (ident ['q', 'u', 'e', 'r', 'y']) (operationCommonP fuel))

/-- `mutation`: keyword `mutation` then `operation_common`. -/
def mutationP (fuel : Nat) : GParser Mutation :=
  pmap (fun x => Mutation.mk x.1 x.2.1 [] x.2.2)
    (withP (ident ['m', 'u', 't', 'a', 't', 'i', 'o', 'n'])
      (operationCommonP fuel))

/-- `subscription`: keyword `subscription` then `operation_common`. -/
def subscriptionP (fuel : Nat) : GParser Subscription :=
  pmap (fun x => Subscription.mk x.1 x.2.1 [] x.2.2)
    (withP (ident ['s', 'u', 'b', 's', 'c', 'r', 'i', 'p', 't', 'i', 'o', 'n'])
      (operationCommonP fuel))

/-- `operation_definition`: shorthand selection set, `query`, `mutation`,
`subscription`, tried in the source's order. -/
def operationDefinitionP (fuel : Nat) : GParser OperationDefinition :=
  orP (orP (orP
    (pmap OperationDefinition.selectionSet (selectionSetP fuel))
    (pmap OperationDefinition.query (queryP fuel)))
    (pmap OperationDefinition.mutation (mutationP fuel)))
    (pmap OperationDefinition.subscription (subscriptionP fuel))

/-- `fragment_definition`: `fragment name on TypeName directives
selection_set`. -/
def fragmentDefinitionP (fuel : Nat) : GParser FragmentDefinition :=
  pmap (fun x => FragmentDefinition.mk x.1.1.1 x.1.1.2 x.1.2 x.2)
    (andP (andP (andP
      (withP (ident ['f', 'r', 'a', 'g', 'm', 'e', 'n', 't']) nameP)
      (pmap TypeCondition.on (withP (ident ['o', 'n']) nameP)))
      (directivesP fuel))
      (selectionSetP fuel))

/-- `definition`: `operation_definition` or `fragment_definition`. -/
def definitionP (fuel : Nat) : GParser Definition :=
  orP (pmap Definition.operation (operationDefinitionP fuel))
    (pmap Definition.fragment (fragmentDefinitionP fuel))

/-- Outcome of `parse_query`: `Ok(Document)`, `Err(QueryParseError)`
(modelled as `PError`), or a process abort via panic. -/
inductive ParseOutcome where
  | ok (d : Document)
  | error (e : PError)
  | panicked

/-- `parse_query`: build the token stream, parse one-or-more definitions
into a `Document`, require end of input.  The fuel bound exceeds any
recursion depth reachable on the input (each nesting level consumes
tokens), so the divergence marker is unreachable. -/
def parse_query (s : List Char) : ParseOutcome :=
  let fuel := 2 * s.length + 2
  match skipP (pmap Document.mk (many1P (definitionP fuel))) eofP
      (TokenStream.new s) with
  | .cok d _ => .ok d
  | .eok d _ => .ok d
  | .cerr e => .error e
  | .eerr e => .error e
  | .pan => .panicked

/-! ## Specification-side predicates for the numeric-shape claims -/

/-- The tokenizer's guarantee about numeric lexemes: the first character is
a digit or `-` (the `NOTE` above `check_int` in the source). -/
def headIsNumStart : List Char → Prop
  | [] => False
  | c :: _ => c = '-' ∨ isDigit09 c = true

/-- The integer shape stated by the specification: exactly `"0"`, `"-0"`,
or an optionally-`-`-signed non-zero digit followed only by digits. -/
def intShapeClaim (v : List Char) : Prop :=
  v = ['0'] ∨ v = ['-', '0'] ∨
  (∃ d ds, v = d :: ds ∧ isDigit09 d = true ∧ d ≠ '0' ∧
    ds.all isDigit09 = true) ∨
  (∃ d ds, v = '-' :: d :: ds ∧ isDigit09 d = true ∧ d ≠ '0' ∧
    ds.all isDigit09 = true)

/-- The lexeme `10000000000000000000000000000` (29 digits), syntactically a
valid IntValue but outside the 64-bit range. -/
def bigIntLexeme : List Char :=
  '1' :: List.replicate 28 '0'

/-- The document `{ a(x: 10000000000000000000000000000) }`. -/
def bigIntDoc : List Char :=
  ['{', ' ', 'a', '(', 'x', ':', ' '] ++ bigIntLexeme ++ [')', ' ', '}']

/-! ## Helper lemmas -/

theorem check_int_iff (v : List Char) (h : headIsNumStart v) :
    check_int v = true ↔ intShapeClaim v := by
  match v with
  | [] => exact absurd h (by simp [headIsNumStart])
  | c :: t =>
    have h' : c = '-' ∨ isDigit09 c = true := h
    by_cases hm : c = '-'
    · subst hm
      match t with
      | [] =>
        constructor
        · intro hci; exact absurd hci (by decide)
        · rintro (h1 | h1 | ⟨d, ds, h1, h2, h3, h4⟩ | ⟨d, ds, h1, h2, h3, h4⟩)
          · simp at h1
          · simp at h1
          · injection h1 with ha hb; subst ha; exact absurd h2 (by decide)
          · injection h1 with ha hb; simp at hb
      | c2 :: t2 =>
        by_cases h20 : c2 = '0'
        · subst h20
          match t2 with
          | [] =>
            constructor
            · intro _; exact Or.inr (Or.inl rfl)
            · intro _; decide
          | c3 :: t3 =>
            constructor
            · intro hci; simp [check_int] at hci
            · rintro (h1 | h1 | ⟨d, ds, h1, h2, h3, h4⟩ | ⟨d, ds, h1, h2, h3, h4⟩)
              · simp at h1
              · simp at h1
              · injection h1 with ha hb; subst ha; exact absurd h2 (by decide)
              · injection h1 with ha hb; injection hb with hb1 hb2
                subst hb1; exact absurd rfl h3
        · constructor
          · intro hci
            have hall : isDigit09 c2 = true ∧ t2.all isDigit09 = true := by
              simp [check_int, h20] at hci
              exact ⟨hci.1, List.all_eq_true.mpr hci.2⟩
            exact Or.inr (Or.inr (Or.inr ⟨c2, t2, rfl, hall.1, h20, hall.2⟩))
          · rintro (h1 | h1 | ⟨d, ds, h1, h2, h3, h4⟩ | ⟨d, ds, h1, h2, h3, h4⟩)
            · simp at h1
            · simp at h1; exact absurd h1.1 h20
            · injection h1 with ha hb; subst ha; exact absurd h2 (by decide)
            · injection h1 with ha hb; injection hb with hb1 hb2
              subst hb1; subst hb2
              simp [check_int, h3, h2, h4]
    · have hd : isDigit09 c = true := h'.resolve_left hm
      by_cases h0 : c = '0'
      · subst h0
        match t with
        | [] =>
          constructor
          · intro _; exact Or.inl rfl
          · intro _; decide
        | c2 :: t2 =>
          constructor
          · intro hci; simp [check_int] at hci
          · rintro (h1 | h1 | ⟨d, ds, h1, h2, h3, h4⟩ | ⟨d, ds, h1, h2, h3, h4⟩)
            · simp at h1
            · simp at h1
            · injection h1 with ha hb; subst ha; exact absurd rfl h3
            · injection h1 with ha hb; exact absurd ha (by decide)
      · constructor
        · intro hci
          have hall : t.all isDigit09 = true := by
            simp [check_int, h0, hm] at hci
            exact List.all_eq_true.mpr hci
          exact Or.inr (Or.inr (Or.inl ⟨c, t, rfl, hd, h0, hall⟩))
        · rintro (h1 | h1 | ⟨d, ds, h1, h2, h3, h4⟩ | ⟨d, ds, h1, h2, h3, h4⟩)
          · injection h1 with ha hb; exact absurd ha h0
          · injection h1 with ha hb; exact absurd ha hm
          · injection h1 with ha hb; subst ha; subst hb
            simp [check_int, h0, hm, h4]
          · injection h1 with ha hb; exact absurd ha hm

theorem check_dec_iff (v : List Char) :
    check_dec v = true ↔ (v ≠ [] ∧ v.all isDigit09 = true) := by
  cases v with
  | nil => simp [check_dec]
  | cons c t => simp [check_dec, List.all_eq_true]

theorem check_exp_iff (v : List Char) :
    check_exp v = true ↔
      ∃ c ds, v = c :: ds ∧ (c = '+' ∨ c = '-') ∧ ds ≠ [] ∧
        ds.all isDigit09 = true := by
  cases v with
  | nil => simp [check_exp]
  | cons c ds =>
    simp only [check_exp, Bool.and_eq_true, Bool.or_eq_true, decide_eq_true_eq,
      List.take_succ_cons, List.take_zero, List.drop_succ_cons, List.drop_zero,
      List.length_cons, List.cons.injEq, and_true]
    constructor
    · rintro ⟨⟨hs, hlen⟩, hall⟩
      refine ⟨c, ds, ⟨rfl, rfl⟩, hs.symm, ?_, hall⟩
      intro hnil
      subst hnil
      simp at hlen
    · rintro ⟨c', ds', ⟨h1, h2⟩, hsign, hne, hall⟩
      subst h1; subst h2
      refine ⟨⟨hsign.symm, ?_⟩, hall⟩
      cases ds with
      | nil => exact absurd rfl hne
      | cons _ _ => simp

theorem skipWhitespace_buf (s : TokenStream) :
    (skipWhitespace s).buf = s.buf := by
  simp only [skipWhitespace]
  split <;> rfl

theorem uncons_snd_buf (s : TokenStream) : ((uncons s).2).buf = s.buf := by
  unfold uncons
  cases hpk : peekToken s with
  | error e => rfl
  | ok kl => exact skipWhitespace_buf _

theorem unconsIter_buf (n : Nat) (s : TokenStream) :
    (unconsIter n s).buf = s.buf := by
  induction n generalizing s with
  | zero => rfl
  | succ n ih => rw [unconsIter, ih, uncons_snd_buf]

theorem peekTokenAux_punct {rest : List Char} {len : Nat}
    (h : peekTokenAux rest = .ok (Kind.punctuator, len)) :
    rest.take len = ['!'] ∨ rest.take len = ['$'] ∨ rest.take len = [':'] ∨
    rest.take len = ['='] ∨ rest.take len = ['@'] ∨ rest.take len = ['|'] ∨
    rest.take len = ['('] ∨ rest.take len = [')'] ∨ rest.take len = ['['] ∨
    rest.take len = [']'] ∨ rest.take len = ['{'] ∨ rest.take len = ['}'] ∨
    rest.take len = ['.', '.', '.'] := by
  match rest with
  | [] => simp [peekTokenAux] at h
  | c :: tail =>
    rw [peekTokenAux] at h
    by_cases h1 : isPunctChar c = true
    · rw [if_pos h1] at h
      simp only [Except.ok.injEq, Prod.mk.injEq] at h
      obtain ⟨-, hlen⟩ := h
      subst hlen
      simp only [isPunctChar, Bool.or_eq_true, decide_eq_true_eq] at h1
      rcases h1 with
        (((((((((((rfl | rfl) | rfl) | rfl) | rfl) | rfl) | rfl) | rfl) |
          rfl) | rfl) | rfl) | rfl) <;>
        simp [List.take_succ_cons]
    · rw [if_neg h1] at h
      by_cases h2 : c = '.'
      · rw [if_pos h2] at h
        subst h2
        by_cases h3 : tail.take 2 = ['.', '.']
        · rw [if_pos h3] at h
          simp only [Except.ok.injEq, Prod.mk.injEq] at h
          obtain ⟨-, hlen⟩ := h
          subst hlen
          simp [List.take_succ_cons, h3]
        · rw [if_neg h3] at h
          simp at h
      · rw [if_neg h2] at h
        by_cases h4 : isNameStart c = true
        · rw [if_pos h4] at h
          simp at h
        · rw [if_neg h4] at h
          by_cases h5 : (c = '-' || isDigit09 c) = true
          · rw [if_pos h5] at h
            rcases hn : numScan tail 1 none none with ⟨len', e, r⟩
            rw [hn] at h
            dsimp only at h
            split_ifs at h <;> simp_all
          · rw [if_neg h5] at h
            by_cases h6 : c = '"'
            · rw [if_pos h6] at h
              by_cases h7 : tail.take 2 = ['"', '"']
              · rw [if_pos h7] at h
                rcases hb : blockScan (tail.drop 2) 0 none with _ | ei <;>
                  rw [hb] at h <;> simp at h
              · rw [if_neg h7] at h
                rcases hs : singleScan c tail 1 with _ | l <;>
                  rw [hs] at h <;> simp at h
            · rw [if_neg h6] at h
              simp at h

/-! ## Claim theorems -/

/-- C1: the claim says an input whose next significant character begins a
single-line string with no terminating unescaped `"` before end of input
makes the lexer report a lexical error (unterminated string).  The code
instead classifies the whole remainder as a `Name` token: on `"abc` the
`peek_token` string loop runs off the end of the input and falls through to
`Ok((Name, ..))`, so `uncons` succeeds. -/
theorem c1_unterminated_string_lexes_as_name :
    (uncons (TokenStream.new ['"', 'a', 'b', 'c'])).1 =
      .ok { kind := Kind.name, value := ['"', 'a', 'b', 'c'] } := rfl

/-- C2: the claim says `\b` decodes to the backspace control code U+0008
and every escape outside the supported set is a decode error.  The decoder
actually pushes U+0010 for `\b` (the source literally writes `'\u{0010}'`),
and `\u` reaches `unimplemented!()` (a panic, not a decode error); an
unsupported escape such as `\q` is reported as a decode error as claimed. -/
theorem c2_unquote_escape_divergences :
    unquote_string ['"', '\\', 'b', '"'] = .ok [Char.ofNat 0x10] ∧
    Char.ofNat 0x10 ≠ Char.ofNat 0x08 ∧
    unquote_string ['"', '\\', 'u', '0', '0', '4', '1', '"'] = .panicked ∧
    unquote_string ['"', '\\', 'q', '"'] = .err 'q' :=
  ⟨rfl, by decide, rfl, rfl⟩

/-- C3: numeric lexeme validation.  For every lexeme whose first character
is a digit or `-`, `check_int` accepts exactly the claimed integer shape
(`"0"`, `"-0"`, or optionally-signed non-zero digit followed by digits);
the fractional part check accepts exactly non-empty digit runs; the
exponent check accepts exactly an explicit `+`/`-` sign followed by one or
more digits; and the lexer rejects `01`, `00001`, `-`, `-01`, `0e0` and
`.0` as lexical errors. -/
theorem c3_numeric_lexeme_validation :
    (∀ v : List Char, headIsNumStart v →
      (check_int v = true ↔ intShapeClaim v)) ∧
    (∀ v : List Char, check_dec v = true ↔
      (v ≠ [] ∧ v.all isDigit09 = true)) ∧
    (∀ v : List Char, check_exp v = true ↔
      ∃ c ds, v = c :: ds ∧ (c = '+' ∨ c = '-') ∧ ds ≠ [] ∧
        ds.all isDigit09 = true) ∧
    (uncons (TokenStream.new ['0', '1'])).1 =
      .error (.unsupportedInt ['0', '1']) ∧
    (uncons (TokenStream.new ['0', '0', '0', '0', '1'])).1 =
      .error (.unsupportedInt ['0', '0', '0', '0', '1']) ∧
    (uncons (TokenStream.new ['-'])).1 = .error (.unsupportedInt ['-']) ∧
    (uncons (TokenStream.new ['-', '0', '1'])).1 =
      .error (.unsupportedInt ['-', '0', '1']) ∧
    (uncons (TokenStream.new ['0', 'e', '0'])).1 =
      .error (.unsupportedFloat ['0', 'e', '0']) ∧
    (uncons (TokenStream.new ['.', '0'])).1 = .error .bareDot :=
  ⟨check_int_iff, check_dec_iff, check_exp_iff, rfl, rfl, rfl, rfl, rfl, rfl⟩

/-- C3 witness: the shape equivalence applied at the concrete lexeme `42`. -/
theorem c3_numeric_lexeme_validation_witness :
    check_int ['4', '2'] = true ↔ intShapeClaim ['4', '2'] :=
  c3_numeric_lexeme_validation.1 ['4', '2'] (Or.inr rfl)

/-- C4 counterexample: the claim says an operation whose variable-definition
list is written `()` parses successfully with an empty list.  In the code
`punct("(")` consumes the parenthesis and `many1` then fails, a consumed
error that `optional` does not recover, so `query Q() { a }` is a parse
error. -/
theorem c4_counterexample_empty_parens :
    parse_query
      ['q', 'u', 'e', 'r', 'y', ' ', 'Q', '(', ')', ' ', '{', ' ', 'a', ' ',
        '}'] = .error .unexpectedToken := rfl

/-- C4 (amended): writing `()` for the variable-definition list is a syntax
error (a parenthesized list must contain at least one definition; omitting
the parentheses entirely yields the empty list), and `{}` with zero
selections is a syntax error as the claim states. -/
theorem c4_amended_variable_list_rules :
    parse_query
      ['q', 'u', 'e', 'r', 'y', ' ', 'Q', '(', ')', ' ', '{', ' ', 'a', ' ',
        '}'] = .error .unexpectedToken ∧
    parse_query ['q', 'u', 'e', 'r', 'y', ' ', 'Q', ' ', '{', ' ', 'a', ' ',
        '}'] =
      .ok ⟨[.operation (.query (.mk (some ['Q']) [] []
        (.mk [.field (.mk ['a'] none [] [] (.mk []))])))]⟩ ∧
    parse_query ['{', '}'] = .error .unexpectedToken :=
  ⟨rfl, rfl, rfl⟩

/-- C5: an IntValue token whose digits overflow the 64-bit range makes the
`int_value` production fail with a consumed "number too large" range error,
and parsing the document `{ a(x: 10000000000000000000000000000) }` returns
that catchable error — no wraparound (`ok`) and no process abort
(`panicked`). -/
theorem c5_int_overflow_is_range_error :
    (∀ (s : TokenStream) (tok : Token) (s' : TokenStream),
      uncons s = (.ok tok, s') → tok.kind = Kind.intValue →
      rustParseI64 tok.value = .error .posOverflow →
      intValueP s = .cerr (.numberError .posOverflow)) ∧
    parse_query bigIntDoc = .error (.numberError .posOverflow) := by
  constructor
  · intro s tok s' h hk hov
    unfold intValueP andThenE kindP satisfyTok
    rw [h]
    simp [hk, hov]
  · rfl

/-- C5 witness: the production-level statement applied to a stream holding
exactly the 29-digit literal. -/
theorem c5_int_overflow_is_range_error_witness :
    intValueP (TokenStream.new bigIntLexeme) =
      .cerr (.numberError .posOverflow) :=
  c5_int_overflow_is_range_error.1 (TokenStream.new bigIntLexeme)
    { kind := Kind.intValue, value := bigIntLexeme }
    (uncons (TokenStream.new bigIntLexeme)).2 rfl rfl rfl

/-- C6: `...b` in a selection set parses as a FragmentSpread named `b`,
and `... on T { x }` parses as an InlineFragment with type condition
`On("T")` — the outcomes of the source's alternation order (inline
fragment with optional `on` first, fragment spread second). -/
theorem c6_fragment_disambiguation :
    parse_query ['{', ' ', '.', '.', '.', 'b', ' ', '}'] =
      .ok ⟨[.operation (.selectionSet (.mk
        [.fragmentSpread (.mk ['b'] [])]))]⟩ ∧
    parse_query
      ['{', ' ', '.', '.', '.', ' ', 'o', 'n', ' ', 'T', ' ', '{', ' ', 'x',
        ' ', '}', ' ', '}'] =
      .ok ⟨[.operation (.selectionSet (.mk [.inlineFragment
        (.mk (some (.on ['T'])) []
          (.mk [.field (.mk ['x'] none [] [] (.mk []))]))]))]⟩ :=
  ⟨rfl, rfl⟩

/-- C7: `parse_query "{ a }"` returns a Document with exactly one
shorthand-SelectionSet operation containing one Field named `a` with no
alias, no arguments, no directives and the empty sentinel selection set. -/
theorem c7_parse_single_field_shorthand :
    parse_query ['{', ' ', 'a', ' ', '}'] =
      .ok ⟨[.operation (.selectionSet (.mk
        [.field (.mk ['a'] none [] [] (.mk []))]))]⟩ := rfl

/-- C8: checkpoint/reset round trip.  Resetting to a checkpoint taken at
state `s` after consuming any number of tokens restores exactly `s` (buffer,
position and offset), so every subsequent token request coincides with one
made from `s`. -/
theorem c8_checkpoint_reset_roundtrip (s : TokenStream) (n : Nat) :
    reset (unconsIter n s) (checkpoint s) = s ∧
    uncons (reset (unconsIter n s) (checkpoint s)) = uncons s := by
  have hb := unconsIter_buf n s
  have h1 : reset (unconsIter n s) (checkpoint s) = s := by
    unfold reset checkpoint
    cases s with
    | mk buf pos off => simp_all
  exact ⟨h1, by rw [h1]⟩

/-- C9: the claim says `parse_query` is total (always `Ok` or `Err`, never
a panic).  The code panics: a `\u` escape inside a string value reaches
the `unimplemented` branch of `unquote_string`, so parsing a document
whose string argument contains the escape sequence `\u0041` aborts
instead of returning an error. -/
theorem c9_parse_query_panics_on_unicode_escape :
    parse_query
      ['{', ' ', 'a', '(', 'x', ':', ' ', '"', '\\', 'u', '0', '0', '4', '1',
        '"', ')', ' ', '}'] = .panicked := rfl

/-- C10: every token `uncons` returns with kind Punctuator has as value one
of the twelve single-character punctuators or the three-character `...`. -/
theorem c10_punctuator_value_invariant (s : TokenStream) (tok : Token)
    (s' : TokenStream) (h : uncons s = (.ok tok, s'))
    (hk : tok.kind = Kind.punctuator) :
    tok.value = ['!'] ∨ tok.value = ['$'] ∨ tok.value = [':'] ∨
    tok.value = ['='] ∨ tok.value = ['@'] ∨ tok.value = ['|'] ∨
    tok.value = ['('] ∨ tok.value = [')'] ∨ tok.value = ['['] ∨
    tok.value = [']'] ∨ tok.value = ['{'] ∨ tok.value = ['}'] ∨
    tok.value = ['.', '.', '.'] := by
  unfold uncons at h
  cases hpk : peekToken s with
  | error e => rw [hpk] at h; simp at h
  | ok kl =>
    rw [hpk] at h
    rcases kl with ⟨k, len⟩
    simp only [Prod.mk.injEq, Except.ok.injEq] at h
    obtain ⟨htok, -⟩ := h
    subst htok
    simp only at hk
    subst hk
    exact peekTokenAux_punct hpk

/-- C10 witness: the invariant applied to the stream holding `...`. -/
theorem c10_punctuator_value_invariant_witness :
    ({ kind := Kind.punctuator, value := ['.', '.', '.'] } : Token).value =
        ['!'] ∨
      ({ kind := Kind.punctuator, value := ['.', '.', '.'] } : Token).value =
        ['$'] ∨
      ({ kind := Kind.punctuator, value := ['.', '.', '.'] } : Token).value =
        [':'] ∨
      ({ kind := Kind.punctuator, value := ['.', '.', '.'] } : Token).value =
        ['='] ∨
      ({ kind := Kind.punctuator, value := ['.', '.', '.'] } : Token).value =
        ['@'] ∨
      ({ kind := Kind.punctuator, value := ['.', '.', '.'] } : Token).value =
        ['|'] ∨
      ({ kind := Kind.punctuator, value := ['.', '.', '.'] } : Token).value =
        ['('] ∨
      ({ kind := Kind.punctuator, value := ['.', '.', '.'] } : Token).value =
        [')'] ∨
      ({ kind := Kind.punctuator, value := ['.', '.', '.'] } : Token).value =
        ['['] ∨
      ({ kind := Kind.punctuator, value := ['.', '.', '.'] } : Token).value =
        [']'] ∨
      ({ kind := Kind.punctuator, value := ['.', '.', '.'] } : Token).value =
        ['{'] ∨
      ({ kind := Kind.punctuator, value := ['.', '.', '.'] } : Token).value =
        ['}'] ∨
      ({ kind := Kind.punctuator, value := ['.', '.', '.'] } : Token).value =
        ['.', '.', '.'] :=
  c10_punctuator_value_invariant (TokenStream.new ['.', '.', '.'])
    { kind := Kind.punctuator, value := ['.', '.', '.'] }
    (uncons (TokenStream.new ['.', '.', '.'])).2 rfl rfl

end Federation
